import Mathlib

/-!
Shallow embedding of the ToDoListApp backend (FastAPI + SQLAlchemy + SQLite).

The source is a single-table CRUD service over Todo records
(src/app/main.py, src/app/schemas.py, src/app/models.py).  Datetimes are
modelled as naturals, the table as a list of records, and each HTTP
endpoint as a function from the stored list and the request data to the
new stored list together with a result or an error.  Request bodies are
modelled at the JSON level (a field can be absent, null, or a value), and
the Pydantic validation layer as an explicit parsing step, so that the
partial-update semantics of the source is captured faithfully.
-/

namespace TodoApp

/-- Errors surfaced by the HTTP layer: 404 for a missing id, 422 for a
Pydantic or query-parameter validation failure. -/
inductive ApiError where
  | notFound
  | validation
deriving DecidableEq

instance {ε α : Type} [DecidableEq ε] [DecidableEq α] : DecidableEq (Except ε α)
  | .error e, .error f =>
      decidable_of_iff (e = f) ⟨fun h => h ▸ rfl, fun h => by cases h; rfl⟩
  | .error _, .ok _ => isFalse (fun h => by cases h)
  | .ok _, .error _ => isFalse (fun h => by cases h)
  | .ok a, .ok b =>
      decidable_of_iff (a = b) ⟨fun h => h ▸ rfl, fun h => by cases h; rfl⟩

/-- A stored Todo row, mirroring the SQLAlchemy model in src/app/models.py.
Datetimes are naturals; deadline and description are nullable. -/
structure Todo where
  id : Nat
  title : String
  description : Option String
  deadline : Option Nat
  completed : Bool
  created_at : Nat
  updated_at : Nat
deriving DecidableEq

/-- Python str.strip on the underlying character list: drop leading and
trailing whitespace. -/
def pyStrip (s : String) : String :=
  ⟨((s.data.dropWhile Char.isWhitespace).reverse.dropWhile Char.isWhitespace).reverse⟩

/-- Pydantic constraint on the title field, from src/app/schemas.py:
Field(min_length=1, max_length=200), checked on the raw (untrimmed) string,
counting characters. -/
def validTitle (s : String) : Bool :=
  decide (1 ≤ s.length) && decide (s.length ≤ 200)

/-- A JSON object field: absent from the payload, present as null, or
present with a value. -/
inductive JsonField (α : Type) where
  | absent
  | null
  | val (a : α)
deriving DecidableEq

/-- How Pydantic exposes an optional field declared with default None:
absent and null both read back as None. -/
def JsonField.toOption {α : Type} : JsonField α → Option α
  | .absent => none
  | .null => none
  | .val a => some a

/-- The JSON body of a create request. -/
structure CreateRequest where
  title : JsonField String
  description : JsonField String
  deadline : JsonField Nat
deriving DecidableEq

/-- The validated create payload, mirroring schemas.TodoCreate. -/
structure TodoCreate where
  title : String
  description : Option String
  deadline : Option Nat
deriving DecidableEq

/-- Pydantic validation of a create body against schemas.TodoCreate:
title is required (absent or null is rejected, since the field is a plain
str) and its raw length must lie in [1,200]; description and deadline are
optional with default None. -/
def parseCreate (r : CreateRequest) : Except ApiError TodoCreate :=
  match r.title with
  | .val t =>
      if validTitle t then
        .ok ⟨t, r.description.toOption, r.deadline.toOption⟩
      else
        .error .validation
  | _ => .error .validation

/-- The JSON body of an update request. -/
structure UpdateRequest where
  title : JsonField String
  description : JsonField String
  deadline : JsonField Nat
  completed : JsonField Bool
deriving DecidableEq

/-- The validated update payload, mirroring schemas.TodoUpdate: every
field optional with default None, so the handler cannot distinguish an
absent field from an explicit null. -/
structure TodoUpdate where
  title : Option String
  description : Option String
  deadline : Option Nat
  completed : Option Bool
deriving DecidableEq

/-- The title constraint of schemas.TodoUpdate: the field is optional
with default None, so absent and null pass; a present value must satisfy
the length constraint. -/
def titleFieldOk : JsonField String → Bool
  | .val t => validTitle t
  | _ => true

/-- Pydantic validation of an update body against schemas.TodoUpdate:
title, when present with a value, must satisfy the length constraint;
null is accepted for every field (each is declared as a union with None). -/
def parseUpdate (r : UpdateRequest) : Except ApiError TodoUpdate :=
  if titleFieldOk r.title then
    .ok ⟨r.title.toOption, r.description.toOption, r.deadline.toOption, r.completed.toOption⟩
  else
    .error .validation

/-- db.get(Todo, todo_id): look up a row by primary key. -/
def dbGet (db : List Todo) (todo_id : Nat) : Option Todo :=
  db.find? (fun t => t.id = todo_id)

/-- SQLite primary-key assignment for a fresh row: one more than the
largest id in the table (1 on an empty table). -/
def nextId (db : List Todo) : Nat :=
  (db.foldr (fun t m => max t.id m) 0) + 1

/-- Committing a mutated ORM row: the row with the given id is replaced. -/
def dbReplace (db : List Todo) (todo_id : Nat) (t : Todo) : List Todo :=
  db.map (fun x => if x.id = todo_id then t else x)

/-- db.delete(todo): remove the row with the given id. -/
def dbDelete (db : List Todo) (todo_id : Nat) : List Todo :=
  db.filter (fun x => decide ¬ (x.id = todo_id))

/-- POST /todos (create_todo in src/app/main.py): validate the body, then
persist a new row with the trimmed title, completed false and both
timestamps set to now; 422 on a validation failure, with nothing stored. -/
def create_endpoint (db : List Todo) (r : CreateRequest) (now : Nat) :
    List Todo × Except ApiError Todo :=
  match parseCreate r with
  | .error e => (db, .error e)
  | .ok payload =>
      let todo : Todo :=
        { id := nextId db
          title := pyStrip payload.title
          description := payload.description
          deadline := payload.deadline
          completed := false
          created_at := now
          updated_at := now }
      (db ++ [todo], .ok todo)

/-- The field-by-field mutation performed by update_todo in
src/app/main.py once the row is loaded: title and description are written
only when the parsed payload carries a value; the deadline guard in the
source is the tautology (payload.deadline is not None or payload.deadline
is None), so the deadline is always overwritten; completed is written when
present; updated_at is always set to now. -/
def applyUpdate (todo : Todo) (p : TodoUpdate) (now : Nat) : Todo :=
  let t1 := match p.title with
    | some s => { todo with title := pyStrip s }
    | none => todo
  let t2 := match p.description with
    | some d => { t1 with description := some d }
    | none => t1
  let t3 := if p.deadline ≠ none ∨ p.deadline = none then
      { t2 with deadline := p.deadline }
    else t2
  let t4 := match p.completed with
    | some c => { t3 with completed := c }
    | none => t3
  { t4 with updated_at := now }

/-- PUT /todos/id (update_todo in src/app/main.py): body validation runs
first (422), then the row is loaded (404 when absent, storage untouched),
mutated per applyUpdate, and committed. -/
def update_endpoint (db : List Todo) (todo_id : Nat) (r : UpdateRequest) (now : Nat) :
    List Todo × Except ApiError Todo :=
  match parseUpdate r with
  | .error e => (db, .error e)
  | .ok p =>
      match dbGet db todo_id with
      | none => (db, .error .notFound)
      | some todo =>
          let todo2 := applyUpdate todo p now
          (dbReplace db todo_id todo2, .ok todo2)

/-- GET /todos/id (get_todo in src/app/main.py): 404 when the id is
absent; storage is never modified. -/
def get_endpoint (db : List Todo) (todo_id : Nat) :
    List Todo × Except ApiError Todo :=
  match dbGet db todo_id with
  | none => (db, .error .notFound)
  | some todo => (db, .ok todo)

/-- DELETE /todos/id (delete_todo in src/app/main.py): 404 when the id is
absent with storage untouched; otherwise the row is removed. -/
def delete_endpoint (db : List Todo) (todo_id : Nat) :
    List Todo × Except ApiError Unit :=
  match dbGet db todo_id with
  | none => (db, .error .notFound)
  | some _ => (dbDelete db todo_id, .ok ())

/-- SQLite lower() restricted to ASCII, acting on a Unicode codepoint. -/
def lowerCode (n : Nat) : Nat :=
  if 65 ≤ n ∧ n ≤ 90 then n + 32 else n

/-- Sort key produced by func.lower(Todo.title) under SQLite BINARY
collation: the codepoints of the ASCII-lowercased title, compared
lexicographically (bytewise comparison of UTF-8 agrees with codepointwise
comparison). -/
def sqlLowerKey (s : String) : List Nat :=
  s.data.map (fun c => lowerCode c.toNat)

/-- The CASE expression of apply_sort in src/app/main.py: 1 when the
deadline is NULL, else 0. -/
def nullsLastFlag (t : Todo) : Nat :=
  if t.deadline = none then 1 else 0

/-- The deadline column as a sort key; SQLite orders NULL before every
value in an ascending comparison, which WithBot captures. -/
def deadlineKey (t : Todo) : WithBot Nat :=
  match t.deadline with
  | none => ⊥
  | some d => (d : WithBot Nat)

/-- Lexicographic order on a two-column sort key. -/
def keyLe2 {α β : Type} [LinearOrder α] [LinearOrder β] (x y : α × β) : Prop :=
  x.1 < y.1 ∨ (x.1 = y.1 ∧ x.2 ≤ y.2)

instance {α β : Type} [LinearOrder α] [LinearOrder β] (x y : α × β) :
    Decidable (keyLe2 x y) := by
  unfold keyLe2; infer_instance

/-- Lexicographic order on a three-column sort key. -/
def keyLe3 {α β γ : Type} [LinearOrder α] [LinearOrder β] [LinearOrder γ]
    (x y : α × β × γ) : Prop :=
  x.1 < y.1 ∨ (x.1 = y.1 ∧ keyLe2 x.2 y.2)

instance {α β γ : Type} [LinearOrder α] [LinearOrder β] [LinearOrder γ]
    (x y : α × β × γ) : Decidable (keyLe3 x y) := by
  unfold keyLe3; infer_instance

/-- The ascending multi-column ORDER BY built by apply_sort in
src/app/main.py, as a relation on rows: created_at then id; or lowercased
title then id; or, in the default branch (any other sort_by value), the
NULL flag, then the deadline, then id. -/
def todoLeAsc (sort_by : String) (a b : Todo) : Prop :=
  if sort_by = "created_at" then
    keyLe2 (a.created_at, a.id) (b.created_at, b.id)
  else if sort_by = "title" then
    keyLe2 (sqlLowerKey a.title, a.id) (sqlLowerKey b.title, b.id)
  else
    keyLe3 (nullsLastFlag a, deadlineKey a, a.id) (nullsLastFlag b, deadlineKey b, b.id)

/-- The ORDER BY relation with direction applied: the source wraps every
key in asc when order equals "asc" and in desc otherwise, and reversing
every column of a lexicographic comparison reverses the whole comparison. -/
def todoLe (sort_by order : String) (a b : Todo) : Prop :=
  if order = "asc" then todoLeAsc sort_by a b else todoLeAsc sort_by b a

instance (sort_by order : String) : DecidableRel (todoLe sort_by order) := by
  intro a b
  unfold todoLe todoLeAsc
  infer_instance

/-- apply_sort in src/app/main.py: the stored rows sorted by the selected
ORDER BY relation.  The relation is total, so the sorted result is the
unique sorted permutation; insertion sort realises it. -/
def apply_sort (db : List Todo) (sort_by order : String) : List Todo :=
  List.insertionSort (todoLe sort_by order) db

/-- The query parameters of GET /todos as received: each may be omitted;
limit and offset arrive as integers. -/
structure ListParams where
  sort_by : Option String
  order : Option String
  limit : Option Int
  offset : Option Int
deriving DecidableEq

/-- GET /todos (list_todos in src/app/main.py): FastAPI fills the
defaults, checks the sort_by and order patterns and the limit and offset
ranges before the handler runs (422 on failure, storage untouched), then
the handler sorts and applies LIMIT and OFFSET, skipping the first offset
rows and returning at most limit rows. -/
def list_todos (db : List Todo) (p : ListParams) : Except ApiError (List Todo) :=
  let sort_by := p.sort_by.getD "deadline"
  let order := p.order.getD "asc"
  let limit := p.limit.getD 50
  let offset := p.offset.getD 0
  if (sort_by = "deadline" ∨ sort_by = "created_at" ∨ sort_by = "title") ∧
      (order = "asc" ∨ order = "desc") ∧
      (1 ≤ limit ∧ limit ≤ 200) ∧ 0 ≤ offset then
    .ok (((apply_sort db sort_by order).drop offset.toNat).take limit.toNat)
  else
    .error .validation

/-- The ordering policy for sort_by created_at as the spec words it:
primary key created_at, tiebreak id, both in the requested direction. -/
def specCreatedAtLe (order : String) (a b : Todo) : Prop :=
  if order = "asc" then
    a.created_at < b.created_at ∨ (a.created_at = b.created_at ∧ a.id ≤ b.id)
  else
    b.created_at < a.created_at ∨ (b.created_at = a.created_at ∧ b.id ≤ a.id)

/-- The ordering policy for sort_by title as the spec words it: primary
key the case-insensitive lowercase form of the title (compared
codepointwise), tiebreak id, both in the requested direction. -/
def specTitleLe (order : String) (a b : Todo) : Prop :=
  if order = "asc" then
    sqlLowerKey a.title < sqlLowerKey b.title ∨
      (sqlLowerKey a.title = sqlLowerKey b.title ∧ a.id ≤ b.id)
  else
    sqlLowerKey b.title < sqlLowerKey a.title ∨
      (sqlLowerKey b.title = sqlLowerKey a.title ∧ b.id ≤ a.id)

/-- A stored row with every optional field populated, used as a concrete
instance in counterexamples and witnesses. -/
def exTodo : Todo :=
  ⟨1, "a", some "d", some 5, false, 0, 0⟩

/-- An update body whose only present field is completed, set to true. -/
def exCompletedOnly : UpdateRequest :=
  ⟨.absent, .absent, .absent, .val true⟩

/-- An update body whose only present field is deadline, explicitly null. -/
def exNullDeadline : UpdateRequest :=
  ⟨.absent, .absent, .null, .absent⟩

/-- A stored row with no deadline. -/
def exNullTodo : Todo :=
  ⟨1, "a", none, none, false, 0, 0⟩

/-- A stored row with a deadline. -/
def exDeadlineTodo : Todo :=
  ⟨2, "b", none, some 5, false, 0, 0⟩

/-- A create body whose title carries leading and trailing whitespace. -/
def exCreate : CreateRequest :=
  ⟨.val "  Buy milk  ", .null, .null⟩

/-- A row of the 300-record table used for the pagination scenario. -/
def mkRowN (i : Nat) : Todo :=
  ⟨i + 1, "t", none, none, false, 0, 0⟩

/-- A 300-record table with pairwise distinct ids. -/
def db300 : List Todo :=
  (List.range 300).map mkRowN

theorem keyLe2_total {α β : Type} [LinearOrder α] [LinearOrder β] (x y : α × β) :
    keyLe2 x y ∨ keyLe2 y x := by
  unfold keyLe2
  rcases lt_trichotomy x.1 y.1 with h | h | h
  · exact Or.inl (Or.inl h)
  · rcases le_total x.2 y.2 with h2 | h2
    · exact Or.inl (Or.inr ⟨h, h2⟩)
    · exact Or.inr (Or.inr ⟨h.symm, h2⟩)
  · exact Or.inr (Or.inl h)

theorem keyLe2_trans {α β : Type} [LinearOrder α] [LinearOrder β] {x y z : α × β}
    (h1 : keyLe2 x y) (h2 : keyLe2 y z) : keyLe2 x z := by
  unfold keyLe2 at h1 h2 ⊢
  rcases h1 with h1 | ⟨e1, l1⟩
  · rcases h2 with h2 | ⟨e2, _⟩
    · exact Or.inl (h1.trans h2)
    · exact Or.inl (lt_of_lt_of_le h1 (le_of_eq e2))
  · rcases h2 with h2 | ⟨e2, l2⟩
    · exact Or.inl (lt_of_le_of_lt (le_of_eq e1) h2)
    · exact Or.inr ⟨e1.trans e2, l1.trans l2⟩

theorem keyLe3_total {α β γ : Type} [LinearOrder α] [LinearOrder β] [LinearOrder γ]
    (x y : α × β × γ) : keyLe3 x y ∨ keyLe3 y x := by
  unfold keyLe3
  rcases lt_trichotomy x.1 y.1 with h | h | h
  · exact Or.inl (Or.inl h)
  · rcases keyLe2_total x.2 y.2 with h2 | h2
    · exact Or.inl (Or.inr ⟨h, h2⟩)
    · exact Or.inr (Or.inr ⟨h.symm, h2⟩)
  · exact Or.inr (Or.inl h)

theorem keyLe3_trans {α β γ : Type} [LinearOrder α] [LinearOrder β] [LinearOrder γ]
    {x y z : α × β × γ} (h1 : keyLe3 x y) (h2 : keyLe3 y z) : keyLe3 x z := by
  unfold keyLe3 at h1 h2 ⊢
  rcases h1 with h1 | ⟨e1, l1⟩
  · rcases h2 with h2 | ⟨e2, _⟩
    · exact Or.inl (h1.trans h2)
    · exact Or.inl (lt_of_lt_of_le h1 (le_of_eq e2))
  · rcases h2 with h2 | ⟨e2, l2⟩
    · exact Or.inl (lt_of_le_of_lt (le_of_eq e1) h2)
    · exact Or.inr ⟨e1.trans e2, keyLe2_trans l1 l2⟩

theorem todoLeAsc_total (sort_by : String) (a b : Todo) :
    todoLeAsc sort_by a b ∨ todoLeAsc sort_by b a := by
  unfold todoLeAsc
  split
  · exact keyLe2_total _ _
  · split
    · exact keyLe2_total _ _
    · exact keyLe3_total _ _

theorem todoLeAsc_trans (sort_by : String) {a b c : Todo}
    (h1 : todoLeAsc sort_by a b) (h2 : todoLeAsc sort_by b c) :
    todoLeAsc sort_by a c := by
  unfold todoLeAsc at h1 h2 ⊢
  split at h1 <;> rename_i hs1
  · rw [if_pos hs1] at h2 ⊢
    exact keyLe2_trans h1 h2
  · rw [if_neg hs1] at h2 ⊢
    split at h1 <;> rename_i hs2
    · rw [if_pos hs2] at h2 ⊢
      exact keyLe2_trans h1 h2
    · rw [if_neg hs2] at h2 ⊢
      exact keyLe3_trans h1 h2

theorem todoLe_total (sort_by order : String) (a b : Todo) :
    todoLe sort_by order a b ∨ todoLe sort_by order b a := by
  unfold todoLe
  split
  · exact todoLeAsc_total sort_by a b
  · exact (todoLeAsc_total sort_by a b).symm

theorem todoLe_trans (sort_by order : String) {a b c : Todo}
    (h1 : todoLe sort_by order a b) (h2 : todoLe sort_by order b c) :
    todoLe sort_by order a c := by
  unfold todoLe at h1 h2 ⊢
  split at h1 <;> rename_i ho
  · rw [if_pos ho] at h2 ⊢
    exact todoLeAsc_trans sort_by h1 h2
  · rw [if_neg ho] at h2 ⊢
    exact todoLeAsc_trans sort_by h2 h1

instance (sort_by order : String) : IsTotal Todo (todoLe sort_by order) :=
  ⟨todoLe_total sort_by order⟩

instance (sort_by order : String) : IsTrans Todo (todoLe sort_by order) :=
  ⟨fun _ _ _ => todoLe_trans sort_by order⟩

theorem apply_sort_perm (db : List Todo) (sort_by order : String) :
    (apply_sort db sort_by order).Perm db :=
  List.perm_insertionSort _ db

theorem apply_sort_sorted (db : List Todo) (sort_by order : String) :
    List.Sorted (todoLe sort_by order) (apply_sort db sort_by order) :=
  List.sorted_insertionSort _ db

theorem applyUpdate_title_none (t : Todo) (p : TodoUpdate) (now : Nat)
    (h : p.title = none) : (applyUpdate t p now).title = t.title := by
  unfold applyUpdate
  rw [h]
  rcases p.description with _ | d <;> rcases p.completed with _ | c <;>
    rcases p.deadline with _ | dl <;> simp

theorem applyUpdate_description_none (t : Todo) (p : TodoUpdate) (now : Nat)
    (h : p.description = none) : (applyUpdate t p now).description = t.description := by
  unfold applyUpdate
  rw [h]
  rcases p.title with _ | s <;> rcases p.completed with _ | c <;>
    rcases p.deadline with _ | dl <;> simp

theorem applyUpdate_deadline (t : Todo) (p : TodoUpdate) (now : Nat) :
    (applyUpdate t p now).deadline = p.deadline := by
  unfold applyUpdate
  rcases p.title with _ | s <;> rcases p.description with _ | d <;>
    rcases p.completed with _ | c <;> rcases hdl : p.deadline with _ | dl <;> simp [hdl]

theorem applyUpdate_updated_at (t : Todo) (p : TodoUpdate) (now : Nat) :
    (applyUpdate t p now).updated_at = now := by
  unfold applyUpdate
  simp

theorem applyUpdate_id (t : Todo) (p : TodoUpdate) (now : Nat) :
    (applyUpdate t p now).id = t.id := by
  unfold applyUpdate
  rcases p.title with _ | s <;> rcases p.description with _ | d <;>
    rcases p.completed with _ | c <;> rcases hdl : p.deadline with _ | dl <;> simp [hdl]

theorem parseUpdate_ok {r : UpdateRequest} {p : TodoUpdate}
    (h : parseUpdate r = .ok p) :
    p = ⟨r.title.toOption, r.description.toOption, r.deadline.toOption, r.completed.toOption⟩ := by
  unfold parseUpdate at h
  by_cases hv : titleFieldOk r.title
  · rw [if_pos hv] at h
    injection h with h2
    exact h2.symm
  · rw [if_neg hv] at h
    exact Except.noConfusion h

theorem parseUpdate_deadline {r : UpdateRequest} {p : TodoUpdate}
    (h : parseUpdate r = .ok p) : p.deadline = r.deadline.toOption := by
  rw [parseUpdate_ok h]

theorem parseUpdate_title_not_val {r : UpdateRequest}
    (h : r.title = .absent ∨ r.title = .null) :
    parseUpdate r = .ok ⟨none, r.description.toOption, r.deadline.toOption, r.completed.toOption⟩ := by
  unfold parseUpdate
  rcases h with h | h <;> rw [h] <;> rfl

theorem dbGet_isSome_id {db : List Todo} {i : Nat} {t : Todo}
    (h : dbGet db i = some t) : t.id = i := by
  have := List.find?_some h
  simpa using this

theorem dbGet_dbReplace (db : List Todo) (i : Nat) (u : Todo)
    (hu : u.id = i) (h : (dbGet db i).isSome) :
    dbGet (dbReplace db i u) i = some u := by
  induction db with
  | nil => simp [dbGet] at h
  | cons x xs ih =>
      by_cases hx : x.id = i
      · simp [dbGet, dbReplace, List.find?, hx, hu]
      · have h2 : (dbGet xs i).isSome := by
          simpa [dbGet, List.find?, hx] using h
        simpa [dbGet, dbReplace, List.find?, hx] using ih h2

theorem parseCreate_val (r : CreateRequest) (s : String) (hs : r.title = .val s) :
    parseCreate r =
      if validTitle s then .ok ⟨s, r.description.toOption, r.deadline.toOption⟩
      else .error .validation := by
  unfold parseCreate
  rw [hs]

theorem parseCreate_not_val (r : CreateRequest)
    (h : r.title = .absent ∨ r.title = .null) :
    parseCreate r = .error .validation := by
  unfold parseCreate
  rcases h with h | h <;> rw [h]

theorem pyStrip_all_whitespace {s : String}
    (h : s.data.all Char.isWhitespace = true) : pyStrip s = "" := by
  unfold pyStrip
  have h1 : s.data.dropWhile Char.isWhitespace = [] := by
    rw [List.dropWhile_eq_nil_iff]
    intro x hx
    exact List.all_eq_true.mp h x hx
  rw [h1]
  rfl

theorem todoLeAsc_created_at_iff (a b : Todo) :
    todoLeAsc "created_at" a b ↔
      (a.created_at < b.created_at ∨ (a.created_at = b.created_at ∧ a.id ≤ b.id)) := by
  unfold todoLeAsc keyLe2
  rw [if_pos (by decide)]

theorem todoLeAsc_title_iff (a b : Todo) :
    todoLeAsc "title" a b ↔
      (sqlLowerKey a.title < sqlLowerKey b.title ∨
        (sqlLowerKey a.title = sqlLowerKey b.title ∧ a.id ≤ b.id)) := by
  unfold todoLeAsc keyLe2
  rw [if_neg (by decide), if_pos (by decide)]

theorem todoLeAsc_deadline_null {a b : Todo}
    (h : todoLeAsc "deadline" a b) (ha : a.deadline = none) : b.deadline = none := by
  unfold todoLeAsc keyLe3 at h
  rw [if_neg (by decide), if_neg (by decide)] at h
  by_contra hb
  have hfa : nullsLastFlag a = 1 := by simp [nullsLastFlag, ha]
  have hfb : nullsLastFlag b = 0 := by simp [nullsLastFlag, hb]
  rcases h with h | ⟨h, _⟩
  · rw [show ((nullsLastFlag a, deadlineKey a, a.id) : Nat × WithBot Nat × Nat).1 =
      nullsLastFlag a from rfl,
      show ((nullsLastFlag b, deadlineKey b, b.id) : Nat × WithBot Nat × Nat).1 =
      nullsLastFlag b from rfl, hfa, hfb] at h
    exact absurd h (by decide)
  · rw [show ((nullsLastFlag a, deadlineKey a, a.id) : Nat × WithBot Nat × Nat).1 =
      nullsLastFlag a from rfl,
      show ((nullsLastFlag b, deadlineKey b, b.id) : Nat × WithBot Nat × Nat).1 =
      nullsLastFlag b from rfl, hfa, hfb] at h
    exact absurd h (by decide)

theorem list_todos_ok (db : List Todo) (s o : String) (lim off : Int)
    (hs : s = "deadline" ∨ s = "created_at" ∨ s = "title")
    (ho : o = "asc" ∨ o = "desc")
    (hl : 1 ≤ lim ∧ lim ≤ 200) (hoff : 0 ≤ off) :
    list_todos db ⟨some s, some o, some lim, some off⟩ =
      .ok (((apply_sort db s o).drop off.toNat).take lim.toNat) := by
  unfold list_todos
  dsimp only [Option.getD]
  rw [if_pos ⟨hs, ho, hl, hoff⟩]

/-- C1, counterexample: the claim says a deadline absent from the update
payload is left unchanged, but updating only the completed flag clears a
previously stored deadline, because the handler's deadline guard is a
tautology and an absent deadline reads back from the parsed payload as
None. -/
theorem C1_counterexample :
    update_endpoint [exTodo] 1 exCompletedOnly 10 =
      ([⟨1, "a", some "d", none, true, 0, 10⟩], .ok ⟨1, "a", some "d", none, true, 0, 10⟩) ∧
    exTodo.deadline = some 5 ∧ exCompletedOnly.deadline = .absent := by
  decide

/-- C1, amended: on an update of an existing row, an absent title and an
absent description are left unchanged and updated_at is set to now, but
the stored deadline always becomes the payload's deadline as parsed, so an
absent deadline clears it to null. -/
theorem C1_partial_update_frame (db : List Todo) (i : Nat) (t : Todo)
    (r : UpdateRequest) (now : Nat)
    (hget : dbGet db i = some t)
    (ht : r.title = .absent) (hd : r.description = .absent) :
    ∃ u, update_endpoint db i r now = (dbReplace db i u, .ok u) ∧
      u.title = t.title ∧ u.description = t.description ∧
      u.deadline = r.deadline.toOption ∧ u.updated_at = now := by
  have hp : parseUpdate r =
      .ok ⟨none, r.description.toOption, r.deadline.toOption, r.completed.toOption⟩ :=
    parseUpdate_title_not_val (Or.inl ht)
  refine ⟨applyUpdate t ⟨none, r.description.toOption, r.deadline.toOption,
    r.completed.toOption⟩ now, ?_, ?_, ?_, ?_, ?_⟩
  · unfold update_endpoint
    rw [hp, hget]
  · exact applyUpdate_title_none _ _ _ rfl
  · refine applyUpdate_description_none _ _ _ ?_
    rw [hd]
    rfl
  · rw [applyUpdate_deadline]
  · exact applyUpdate_updated_at _ _ _

/-- C1, witness: the amended statement applied to a one-row table and an
update carrying only the completed flag. -/
theorem C1_witness :
    ∃ u, update_endpoint [exTodo] 1 exCompletedOnly 10 = (dbReplace [exTodo] 1 u, .ok u) ∧
      u.title = exTodo.title ∧ u.description = exTodo.description ∧
      u.deadline = exCompletedOnly.deadline.toOption ∧ u.updated_at = 10 :=
  C1_partial_update_frame [exTodo] 1 exTodo exCompletedOnly 10 (by decide) rfl rfl

/-- C2, counterexample: the claim says a whitespace-only title fails
validation with nothing persisted, but the length constraint is checked on
the raw title, so a single-space title passes validation and a row with an
empty trimmed title is persisted. -/
theorem C2_counterexample :
    create_endpoint [] ⟨.val " ", .null, .null⟩ 0 =
      ([⟨1, "", none, none, false, 0, 0⟩], .ok ⟨1, "", none, none, false, 0, 0⟩) ∧
    (" ").data.all Char.isWhitespace = true := by
  decide

/-- C2, amended: Create fails with a ValidationError and persists nothing
exactly when the raw, untrimmed title is missing, null, or of character
length outside one to two hundred; an empty title is therefore rejected,
but a whitespace-only title of valid raw length passes validation and a
row whose stored, trimmed title is empty is persisted. -/
theorem C2_create_title_validation (db : List Todo) (r : CreateRequest) (now : Nat) :
    ((r.title = .absent ∨ r.title = .null) →
      create_endpoint db r now = (db, .error .validation)) ∧
    (∀ s, r.title = .val s → validTitle s = false →
      create_endpoint db r now = (db, .error .validation)) ∧
    (∀ s, r.title = .val s → validTitle s = true →
      s.data.all Char.isWhitespace = true →
      ∃ t, create_endpoint db r now = (db ++ [t], .ok t) ∧ t.title = "") := by
  refine ⟨?_, ?_, ?_⟩
  · intro h
    unfold create_endpoint
    rw [parseCreate_not_val r h]
  · intro s hs hv
    unfold create_endpoint
    rw [parseCreate_val r s hs, if_neg (by simp [hv])]
  · intro s hs hv hw
    unfold create_endpoint
    rw [parseCreate_val r s hs, if_pos hv]
    exact ⟨⟨nextId db, pyStrip s, r.description.toOption, r.deadline.toOption,
      false, now, now⟩, rfl, pyStrip_all_whitespace hw⟩

/-- C2, witness: the amended statement applied to the empty title, which
is rejected, and to a single-space title, which persists an empty stored
title. -/
theorem C2_witness :
    create_endpoint [] ⟨.val "", .null, .null⟩ 0 = ([], .error .validation) ∧
    (∃ t, create_endpoint [] ⟨.val " ", .null, .null⟩ 0 = ([] ++ [t], .ok t) ∧
      t.title = "") :=
  ⟨(C2_create_title_validation [] _ 0).2.1 "" rfl (by decide),
   (C2_create_title_validation [] _ 0).2.2 " " rfl (by decide) (by decide)⟩

/-- C3, counterexample: the claim says null deadlines sort strictly after
non-null deadlines regardless of direction, but the source applies the
requested direction to the null flag as well, so under descending order
the null-deadline row comes first. -/
theorem C3_counterexample :
    list_todos [exNullTodo, exDeadlineTodo] ⟨some "deadline", some "desc", none, none⟩ =
      .ok [exNullTodo, exDeadlineTodo] ∧
    exNullTodo.deadline = none ∧ exDeadlineTodo.deadline = some 5 := by
  decide

/-- C3, amended: under sort_by deadline with ascending order every
null-deadline record is placed strictly after every non-null one, while
under descending order the grouping is reversed: every null-deadline
record is placed strictly before every non-null one. -/
theorem C3_null_deadline_grouping (db : List Todo) :
    List.Pairwise (fun a b => a.deadline = none → b.deadline = none)
      (apply_sort db "deadline" "asc") ∧
    List.Pairwise (fun a b => b.deadline = none → a.deadline = none)
      (apply_sort db "deadline" "desc") := by
  constructor
  · refine List.Pairwise.imp ?_ (apply_sort_sorted db "deadline" "asc")
    intro a b hab ha
    have h2 : todoLeAsc "deadline" a b := by
      unfold todoLe at hab
      rw [if_pos rfl] at hab
      exact hab
    exact todoLeAsc_deadline_null h2 ha
  · refine List.Pairwise.imp ?_ (apply_sort_sorted db "deadline" "desc")
    intro a b hab hb
    have h2 : todoLeAsc "deadline" b a := by
      unfold todoLe at hab
      rw [if_neg (by decide)] at hab
      exact hab
    exact todoLeAsc_deadline_null h2 hb

/-- C4: whenever an update succeeds, the deadline stored afterwards, and
returned, is exactly the payload's deadline as parsed, and a payload that
omits the deadline behaves the same as one that sets it to null: both
leave the stored deadline null. -/
theorem C4_update_deadline_overwrite (db : List Todo) (i : Nat) (r : UpdateRequest)
    (now : Nat) (db2 : List Todo) (u : Todo)
    (h : update_endpoint db i r now = (db2, .ok u)) :
    u.deadline = r.deadline.toOption ∧ dbGet db2 i = some u ∧
      (r.deadline = .absent → u.deadline = none) ∧
      (r.deadline = .null → u.deadline = none) := by
  unfold update_endpoint at h
  rcases hp : parseUpdate r with e | p
  · rw [hp] at h
    simp at h
  · rw [hp] at h
    rcases hg : dbGet db i with _ | t
    · rw [hg] at h
      simp at h
    · rw [hg] at h
      have h1 : dbReplace db i (applyUpdate t p now) = db2 := congrArg Prod.fst h
      have h2 : (Except.ok (applyUpdate t p now) : Except ApiError Todo) = .ok u :=
        congrArg Prod.snd h
      injection h2 with h2
      subst h2
      subst h1
      refine ⟨?_, ?_, ?_, ?_⟩
      · rw [applyUpdate_deadline, parseUpdate_deadline hp]
      · refine dbGet_dbReplace db i _ ?_ ?_
        · rw [applyUpdate_id]
          exact dbGet_isSome_id hg
        · rw [hg]
          rfl
      · intro he
        rw [applyUpdate_deadline, parseUpdate_deadline hp, he]
        rfl
      · intro he
        rw [applyUpdate_deadline, parseUpdate_deadline hp, he]
        rfl

/-- C4, witness: the statement applied to a one-row table and an update
carrying only the completed flag, whose absent deadline clears the stored
one. -/
theorem C4_witness :
    (⟨1, "a", some "d", none, true, 0, 10⟩ : Todo).deadline =
      exCompletedOnly.deadline.toOption ∧
    dbGet [(⟨1, "a", some "d", none, true, 0, 10⟩ : Todo)] 1 =
      some ⟨1, "a", some "d", none, true, 0, 10⟩ ∧
    (exCompletedOnly.deadline = .absent →
      (⟨1, "a", some "d", none, true, 0, 10⟩ : Todo).deadline = none) ∧
    (exCompletedOnly.deadline = .null →
      (⟨1, "a", some "d", none, true, 0, 10⟩ : Todo).deadline = none) :=
  C4_update_deadline_overwrite [exTodo] 1 exCompletedOnly 10
    [⟨1, "a", some "d", none, true, 0, 10⟩] ⟨1, "a", some "d", none, true, 0, 10⟩
    (by decide)

/-- C5: a create request whose title passes validation persists exactly
one new row and returns it, with the stored title equal to the input title
with leading and trailing whitespace trimmed, the optional fields as
supplied, completed false, and created_at equal to updated_at, both set to
now. -/
theorem C5_create_persists_trimmed (db : List Todo) (r : CreateRequest) (now : Nat)
    (s : String) (hs : r.title = .val s) (hv : validTitle s = true) :
    ∃ t, create_endpoint db r now = (db ++ [t], .ok t) ∧
      t.title = pyStrip s ∧ t.description = r.description.toOption ∧
      t.deadline = r.deadline.toOption ∧ t.completed = false ∧
      t.created_at = now ∧ t.updated_at = now ∧ t.created_at = t.updated_at := by
  unfold create_endpoint
  rw [parseCreate_val r s hs, if_pos hv]
  exact ⟨⟨nextId db, pyStrip s, r.description.toOption, r.deadline.toOption,
    false, now, now⟩, rfl, rfl, rfl, rfl, rfl, rfl, rfl, rfl⟩

/-- C5, witness: the statement applied to the title with surrounding
whitespace from the spec's example, whose trimmed form is Buy milk. -/
theorem C5_witness :
    (∃ t, create_endpoint [] exCreate 7 = ([] ++ [t], .ok t) ∧
      t.title = pyStrip "  Buy milk  " ∧ t.description = exCreate.description.toOption ∧
      t.deadline = exCreate.deadline.toOption ∧ t.completed = false ∧
      t.created_at = 7 ∧ t.updated_at = 7 ∧ t.created_at = t.updated_at) ∧
    pyStrip "  Buy milk  " = "Buy milk" :=
  ⟨C5_create_persists_trimmed [] exCreate 7 "  Buy milk  " rfl (by decide), by decide⟩

/-- C6: updating an existing row with a payload whose deadline field is
explicitly null succeeds and leaves the stored deadline null. -/
theorem C6_explicit_null_clears (db : List Todo) (i : Nat) (t : Todo)
    (r : UpdateRequest) (now : Nat) (p : TodoUpdate)
    (hget : dbGet db i = some t) (_hset : t.deadline ≠ none)
    (hdl : r.deadline = .null) (hp : parseUpdate r = .ok p) :
    ∃ u, update_endpoint db i r now = (dbReplace db i u, .ok u) ∧
      u.deadline = none ∧ dbGet (dbReplace db i u) i = some u := by
  refine ⟨applyUpdate t p now, ?_, ?_, ?_⟩
  · unfold update_endpoint
    rw [hp, hget]
  · rw [applyUpdate_deadline, parseUpdate_deadline hp, hdl]
    rfl
  · refine dbGet_dbReplace db i _ ?_ ?_
    · rw [applyUpdate_id]
      exact dbGet_isSome_id hget
    · rw [hget]
      rfl

/-- C6, witness: the statement applied to a row whose deadline is five and
an update whose only present field is an explicitly null deadline. -/
theorem C6_witness :
    ∃ u, update_endpoint [exTodo] 1 exNullDeadline 10 = (dbReplace [exTodo] 1 u, .ok u) ∧
      u.deadline = none ∧ dbGet (dbReplace [exTodo] 1 u) 1 = some u :=
  C6_explicit_null_clears [exTodo] 1 exTodo exNullDeadline 10 ⟨none, none, none, none⟩
    (by decide) (by decide) rfl (by decide)

/-- C7: fetching, updating (with a body that passes validation), or
deleting an id that is not in storage fails with the not-found error and
returns the stored list unchanged. -/
theorem C7_missing_id (db : List Todo) (i : Nat) (r : UpdateRequest) (now : Nat)
    (h : dbGet db i = none) :
    get_endpoint db i = (db, .error .notFound) ∧
    (∀ p, parseUpdate r = .ok p →
      update_endpoint db i r now = (db, .error .notFound)) ∧
    delete_endpoint db i = (db, .error .notFound) := by
  refine ⟨?_, ?_, ?_⟩
  · unfold get_endpoint
    rw [h]
  · intro p hp
    unfold update_endpoint
    rw [hp, h]
  · unfold delete_endpoint
    rw [h]

/-- C7, witness: the statement applied to the empty table and id five. -/
theorem C7_witness :
    get_endpoint [] 5 = ([], .error .notFound) ∧
    (∀ p, parseUpdate exCompletedOnly = .ok p →
      update_endpoint [] 5 exCompletedOnly 0 = ([], .error .notFound)) ∧
    delete_endpoint [] 5 = ([], .error .notFound) :=
  C7_missing_id [] 5 exCompletedOnly 0 (by decide)

/-- C8: the list endpoint rejects with a ValidationError any provided
sort_by outside the three permitted columns, any order other than asc or
desc, any limit outside one to two hundred, and any negative offset, and
omitting every parameter behaves exactly as the documented defaults of
sort_by deadline, order asc, limit fifty, offset zero. -/
theorem C8_list_param_validation (db : List Todo) (p : ListParams) :
    (∀ s, p.sort_by = some s → ¬(s = "deadline" ∨ s = "created_at" ∨ s = "title") →
      list_todos db p = .error .validation) ∧
    (∀ o, p.order = some o → ¬(o = "asc" ∨ o = "desc") →
      list_todos db p = .error .validation) ∧
    (∀ n, p.limit = some n → ¬(1 ≤ n ∧ n ≤ 200) →
      list_todos db p = .error .validation) ∧
    (∀ k, p.offset = some k → k < 0 →
      list_todos db p = .error .validation) ∧
    list_todos db ⟨none, none, none, none⟩ =
      list_todos db ⟨some "deadline", some "asc", some 50, some 0⟩ := by
  refine ⟨?_, ?_, ?_, ?_, rfl⟩
  · intro s hs hbad
    unfold list_todos
    rw [hs]
    dsimp only [Option.getD]
    exact if_neg (fun hc => hbad hc.1)
  · intro o ho hbad
    unfold list_todos
    rw [ho]
    dsimp only [Option.getD]
    exact if_neg (fun hc => hbad hc.2.1)
  · intro n hn hbad
    unfold list_todos
    rw [hn]
    dsimp only [Option.getD]
    exact if_neg (fun hc => hbad hc.2.2.1)
  · intro k hk hneg
    unfold list_todos
    rw [hk]
    dsimp only [Option.getD]
    exact if_neg (fun hc => absurd hc.2.2.2 (not_le.mpr hneg))

/-- C8, witness: the statement applied to a bogus sort column, a bogus
direction, the limits zero and two hundred one, and the offset minus
one. -/
theorem C8_witness :
    list_todos [] ⟨some "bogus", none, none, none⟩ = .error .validation ∧
    list_todos [] ⟨none, some "up", none, none⟩ = .error .validation ∧
    list_todos [] ⟨none, none, some 0, none⟩ = .error .validation ∧
    list_todos [] ⟨none, none, some 201, none⟩ = .error .validation ∧
    list_todos [] ⟨none, none, none, some (-1)⟩ = .error .validation :=
  ⟨(C8_list_param_validation [] _).1 "bogus" rfl (by decide),
   (C8_list_param_validation [] _).2.1 "up" rfl (by decide),
   (C8_list_param_validation [] _).2.2.1 0 rfl (by decide),
   (C8_list_param_validation [] _).2.2.1 201 rfl (by decide),
   (C8_list_param_validation [] _).2.2.2.1 (-1) rfl (by decide)⟩

/-- C9: for every stored list and every requested direction, sorting by
created_at returns a permutation of the rows ordered by created_at with
ties broken by id, both in the requested direction, and sorting by title
returns a permutation ordered by the lowercased title with ties broken by
id, both in the requested direction. -/
theorem C9_sort_created_at_title (db : List Todo) (order : String) :
    ((apply_sort db "created_at" order).Perm db ∧
      List.Pairwise (specCreatedAtLe order) (apply_sort db "created_at" order)) ∧
    ((apply_sort db "title" order).Perm db ∧
      List.Pairwise (specTitleLe order) (apply_sort db "title" order)) := by
  refine ⟨⟨apply_sort_perm db "created_at" order, ?_⟩,
    ⟨apply_sort_perm db "title" order, ?_⟩⟩
  · refine List.Pairwise.imp ?_ (apply_sort_sorted db "created_at" order)
    intro a b hab
    unfold todoLe at hab
    unfold specCreatedAtLe
    by_cases ho : order = "asc"
    · rw [if_pos ho] at hab
      rw [if_pos ho]
      exact (todoLeAsc_created_at_iff a b).mp hab
    · rw [if_neg ho] at hab
      rw [if_neg ho]
      exact (todoLeAsc_created_at_iff b a).mp hab
  · refine List.Pairwise.imp ?_ (apply_sort_sorted db "title" order)
    intro a b hab
    unfold todoLe at hab
    unfold specTitleLe
    by_cases ho : order = "asc"
    · rw [if_pos ho] at hab
      rw [if_pos ho]
      exact (todoLeAsc_title_iff a b).mp hab
    · rw [if_neg ho] at hab
      rw [if_neg ho]
      exact (todoLeAsc_title_iff b a).mp hab

/-- C10: for a fixed stored set and fixed valid sort parameters the list
endpoint returns the sorted sequence with the first offset records
skipped and at most limit records kept, so on a three-hundred-record set
the pages limit two hundred offset zero and limit two hundred offset two
hundred return two hundred and one hundred records, are disjoint, and
concatenate to the one consistently sorted sequence. -/
theorem C10_pagination_partition (db : List Todo) (s o : String)
    (hs : s = "deadline" ∨ s = "created_at" ∨ s = "title")
    (ho : o = "asc" ∨ o = "desc")
    (hnd : (db.map Todo.id).Nodup)
    (hlen : db.length = 300) :
    list_todos db ⟨some s, some o, some 200, some 0⟩ =
      .ok ((apply_sort db s o).take 200) ∧
    list_todos db ⟨some s, some o, some 200, some 200⟩ =
      .ok ((apply_sort db s o).drop 200) ∧
    ((apply_sort db s o).take 200).length = 200 ∧
    ((apply_sort db s o).drop 200).length = 100 ∧
    (apply_sort db s o).take 200 ++ (apply_sort db s o).drop 200 = apply_sort db s o ∧
    ((apply_sort db s o).take 200).Disjoint ((apply_sort db s o).drop 200) := by
  have hS : (apply_sort db s o).length = 300 := by
    rw [(apply_sort_perm db s o).length_eq, hlen]
  have hnodup : (apply_sort db s o).Nodup :=
    ((apply_sort_perm db s o).nodup_iff).mpr (List.Nodup.of_map _ hnd)
  have hdrop : ((apply_sort db s o).drop 200).length = 100 := by
    rw [List.length_drop, hS]
  have htake : ((apply_sort db s o).drop 200).take 200 = (apply_sort db s o).drop 200 :=
    List.take_of_length_le (by rw [hdrop]; omega)
  have h1 := list_todos_ok db s o 200 0 hs ho (by decide) (by decide)
  have h2 := list_todos_ok db s o 200 200 hs ho (by decide) (by decide)
  refine ⟨h1, ?_, ?_, hdrop, List.take_append_drop 200 _,
    List.disjoint_take_drop hnodup (le_refl 200)⟩
  · rw [show ((200 : Int).toNat) = 200 from rfl, htake] at h2
    exact h2
  · rw [List.length_take, hS]
    decide

/-- C10, witness: the statement applied to a concrete three-hundred-record
table with distinct ids under the default sort. -/
theorem C10_witness :
    list_todos db300 ⟨some "deadline", some "asc", some 200, some 0⟩ =
      .ok ((apply_sort db300 "deadline" "asc").take 200) ∧
    list_todos db300 ⟨some "deadline", some "asc", some 200, some 200⟩ =
      .ok ((apply_sort db300 "deadline" "asc").drop 200) ∧
    ((apply_sort db300 "deadline" "asc").take 200).length = 200 ∧
    ((apply_sort db300 "deadline" "asc").drop 200).length = 100 ∧
    (apply_sort db300 "deadline" "asc").take 200 ++
      (apply_sort db300 "deadline" "asc").drop 200 = apply_sort db300 "deadline" "asc" ∧
    ((apply_sort db300 "deadline" "asc").take 200).Disjoint
      ((apply_sort db300 "deadline" "asc").drop 200) :=
  C10_pagination_partition db300 "deadline" "asc" (Or.inl rfl) (Or.inl rfl)
    (by
      have h : db300.map Todo.id = (List.range 300).map (fun i => i + 1) := by
        simp [db300, List.map_map, Function.comp, mkRowN]
      rw [h]
      exact List.Nodup.map (add_left_injective 1) (List.nodup_range 300))
    (by simp [db300])

end TodoApp
